import Mathlib

/-!
Verification of `ManagedSlice<T, A>` (src/acpi/src/managed_slice.rs).

Shallow embedding: machine sizes are `Nat` with the `isize::MAX` bound made
explicit; the element type `T` is a Lean type parameter `α` whose
`size_of::<T>()` and `align_of::<T>()` are the `Nat` parameters `elemSize`
and `align`; the caller-supplied allocator is a capability
`allocate : Layout → Option (addr × blockSize)`; construction and drop
additionally return the list of allocator events they perform, so that
"the allocator was not called" and "exactly one deallocate" are provable
statements about the trace.
-/

namespace ManagedSliceModel

/-- `core::alloc::Layout`: a (size, alignment) pair. -/
structure Layout where
  size : Nat
  align : Nat
deriving DecidableEq, Repr

/-- `isize::MAX` on the 64-bit targets this crate compiles for. -/
def isizeMax : Nat := 2 ^ 63 - 1

/-- `Layout::max_size_for_align(align)`: `isize::MAX as usize - (align - 1)`. -/
def maxSizeForAlign (align : Nat) : Nat := isizeMax - (align - 1)

/-- `Layout::array::<T>(n)` for an element type of size `elemSize` and
alignment `align`: errors when `elemSize != 0 && n > max_size_for_align(align) / elemSize`
(the check in `core::alloc::Layout::array` guaranteeing the total size fits in
`isize` even after rounding up to `align`); otherwise the layout is
`(n * elemSize, align)`. -/
def layoutArray (elemSize align n : Nat) : Option Layout :=
  if elemSize ≠ 0 ∧ n > maxSizeForAlign align / elemSize then none
  else some ⟨n * elemSize, align⟩

/-- `core::alloc::AllocError`. -/
inductive AllocError where
  | allocError
deriving DecidableEq, Repr

/-- One call made to the bound allocator. -/
inductive AllocEvent where
  | allocate (layout : Layout)
  | deallocate (addr : Nat) (layout : Layout)
deriving DecidableEq, Repr

/-- The external allocator capability (`A: Allocator`). `allocate` returns the
starting address and the actual size of the block it produced (the Rust
`Allocator` contract lets the block be larger than `layout.size`), or `none`
when it cannot satisfy the request. -/
structure Allocator where
  allocate : Layout → Option (Nat × Nat)

/-- `ManagedSlice<T, A>`: `memory` is the `NonNull<[T]>` fat pointer — the
starting address of the region together with the `len` elements it is
interpreted as (the length is the list's length, as in the pointer metadata);
`allocator` is the bound allocator instance, held by value. -/
structure ManagedSlice (α : Type) where
  memory : List α
  addr : Nat
  allocator : Allocator

/-- An element slot of `ManagedSlice<MaybeUninit<T>, A>`: `none` is the
uninitialized state. -/
abbrev Uninit (α : Type) := Option α

/-- `ManagedSlice::new_uninit_in(len, allocator)`: compute
`Layout::array::<T>(len)` (propagating its error as `AllocError`), request a
block from the allocator, and on success build the handle from the returned
address and the *requested* element count `len`
(`NonNull::slice_from_raw_parts(ptr.cast(), len)`), its `len` slots all
uninitialized. Also returns the allocator calls performed. -/
def new_uninit_in (α : Type) (elemSize align : Nat) (len : Nat) (allocator : Allocator) :
    Except AllocError (ManagedSlice (Uninit α)) × List AllocEvent :=
  match layoutArray elemSize align len with
  | none => (.error .allocError, [])
  | some layout =>
    match allocator.allocate layout with
    | none => (.error .allocError, [.allocate layout])
    | some (addr, _blockSize) =>
      (.ok ⟨List.replicate len none, addr, allocator⟩, [.allocate layout])

/-- `slice::fill` on the freshly cast uninitialized slice: every slot is set
to `MaybeUninit::new(value)`, i.e. becomes initialized with `value`. -/
def fillUninit (slots : List (Uninit α)) (value : α) : List α :=
  slots.map (fun _ => value)

/-- `ManagedSlice::new_in(len, value, allocator)` (for `T: Copy`): the same
layout computation and allocation as `new_uninit_in`, then the `len`-slot view
built from the returned address is filled with `value` before the handle is
returned. Also returns the allocator calls performed. -/
def new_in (elemSize align : Nat) (len : Nat) (value : α) (allocator : Allocator) :
    Except AllocError (ManagedSlice α) × List AllocEvent :=
  match layoutArray elemSize align len with
  | none => (.error .allocError, [])
  | some layout =>
    match allocator.allocate layout with
    | none => (.error .allocError, [.allocate layout])
    | some (addr, _blockSize) =>
      (.ok ⟨fillUninit (List.replicate len (none : Uninit α)) value, addr, allocator⟩,
       [.allocate layout])

/-- `<ManagedSlice as Drop>::drop`: recompute `Layout::array::<T>(self.len())`
— `none` here models the `.unwrap()` panicking — and call
`allocator.deallocate(ptr, layout)`, returned as the emitted event.
(`elemSize`/`align` are those of the handle's element type; for a handle of
element type `MaybeUninit<T>` they equal those of `T`.) -/
def ManagedSlice.drop (elemSize align : Nat) (s : ManagedSlice α) : Option AllocEvent :=
  (layoutArray elemSize align s.memory.length).map
    (fun layout => .deallocate s.addr layout)

/-- `<ManagedSlice as Deref>::deref`: the region viewed as a `&[T]` of the
handle's `len` elements. -/
def ManagedSlice.deref (s : ManagedSlice α) : List α := s.memory

/-- Reading index `i` through the `Deref` view with Rust's bounds-checked
slice indexing: `none` is the signaled bounds violation (panic) for
`i ≥ len`. -/
def readAt (s : ManagedSlice α) (i : Nat) : Option α := s.deref[i]?

/-- Writing `v` at index `i` through the `DerefMut` view with Rust's
bounds-checked slice indexing: `none` is the signaled bounds violation
(panic) for `i ≥ len`. -/
def writeAt (s : ManagedSlice α) (i : Nat) (v : α) : Option (ManagedSlice α) :=
  if i < s.memory.length then some { s with memory := s.memory.set i v } else none

/-- The `unsafe impl Send for ManagedSlice<T, A>` (lines 18–24), transcribed
as a function of whether `T` is `Send` and whether `A` is `Send`: the impl's
only bound is `T: Send` — it imposes no `Send` bound on the allocator type. -/
def managedSliceSend (tSend : Bool) (_aSend : Bool) : Bool := tSend

/-- A recording allocator that always succeeds, handing out a block at
address 16 whose actual size may exceed the requested size by `extra`. -/
def okAllocator (extra : Nat) : Allocator :=
  ⟨fun layout => some (16, layout.size + extra)⟩

/-- An allocator that declines every request. -/
def failAllocator : Allocator := ⟨fun _ => none⟩

/-! ### Helper lemmas shared by the claim theorems -/

theorem fillUninit_replicate (len : Nat) (v : α) :
    fillUninit (List.replicate len (none : Uninit α)) v = List.replicate len v := by
  simp [fillUninit, List.map_replicate]

theorem layoutArray_overflow {elemSize align n : Nat} (h : isizeMax < n * elemSize) :
    layoutArray elemSize align n = none := by
  have he : elemSize ≠ 0 := by
    rintro rfl
    simp at h
  have hdiv : maxSizeForAlign align / elemSize < n := by
    rw [Nat.div_lt_iff_lt_mul (Nat.pos_of_ne_zero he)]
    exact Nat.lt_of_le_of_lt (Nat.sub_le _ _) h
  simp [layoutArray, he, hdiv]

theorem layoutArray_zero (elemSize align : Nat) :
    layoutArray elemSize align 0 = some ⟨0, align⟩ := by
  simp [layoutArray]

theorem new_in_ok_inv {elemSize align len : Nat} {v : α} {alloc : Allocator}
    {s : ManagedSlice α} {tr : List AllocEvent}
    (h : new_in elemSize align len v alloc = (.ok s, tr)) :
    ∃ layout addr blockSize,
      layoutArray elemSize align len = some layout ∧
      alloc.allocate layout = some (addr, blockSize) ∧
      s = ⟨List.replicate len v, addr, alloc⟩ ∧
      tr = [.allocate layout] := by
  unfold new_in at h
  split at h
  · simp at h
  · rename_i layout hla
    split at h
    · simp at h
    · rename_i addr bs hal
      simp only [fillUninit_replicate, Prod.mk.injEq, Except.ok.injEq] at h
      exact ⟨layout, addr, bs, hla, hal, h.1.symm, h.2.symm⟩

theorem new_uninit_in_ok_inv {α : Type} {elemSize align len : Nat} {alloc : Allocator}
    {s : ManagedSlice (Uninit α)} {tr : List AllocEvent}
    (h : new_uninit_in α elemSize align len alloc = (.ok s, tr)) :
    ∃ layout addr blockSize,
      layoutArray elemSize align len = some layout ∧
      alloc.allocate layout = some (addr, blockSize) ∧
      s = ⟨List.replicate len none, addr, alloc⟩ ∧
      tr = [.allocate layout] := by
  unfold new_uninit_in at h
  split at h
  · simp at h
  · rename_i layout hla
    split at h
    · simp at h
    · rename_i addr bs hal
      simp only [Prod.mk.injEq, Except.ok.injEq] at h
      exact ⟨layout, addr, bs, hla, hal, h.1.symm, h.2.symm⟩

theorem new_in_fst_ok_inv {elemSize align len : Nat} {v : α} {alloc : Allocator}
    {s : ManagedSlice α}
    (h : (new_in elemSize align len v alloc).1 = .ok s) :
    ∃ layout addr blockSize,
      layoutArray elemSize align len = some layout ∧
      alloc.allocate layout = some (addr, blockSize) ∧
      s = ⟨List.replicate len v, addr, alloc⟩ := by
  rcases hpair : new_in elemSize align len v alloc with ⟨r, tr⟩
  rw [hpair] at h
  dsimp at h
  subst h
  obtain ⟨layout, addr, bs, hla, hal, hs, -⟩ := new_in_ok_inv hpair
  exact ⟨layout, addr, bs, hla, hal, hs⟩

theorem new_uninit_in_fst_ok_inv {α : Type} {elemSize align len : Nat} {alloc : Allocator}
    {s : ManagedSlice (Uninit α)}
    (h : (new_uninit_in α elemSize align len alloc).1 = .ok s) :
    ∃ layout addr blockSize,
      layoutArray elemSize align len = some layout ∧
      alloc.allocate layout = some (addr, blockSize) ∧
      s = ⟨List.replicate len none, addr, alloc⟩ := by
  rcases hpair : new_uninit_in α elemSize align len alloc with ⟨r, tr⟩
  rw [hpair] at h
  dsimp at h
  subst h
  obtain ⟨layout, addr, bs, hla, hal, hs, -⟩ := new_uninit_in_ok_inv hpair
  exact ⟨layout, addr, bs, hla, hal, hs⟩

/-! ### Claim theorems -/

/-- C1: for every `len`, value `v` and allocator, if `ManagedSlice::new_in`
succeeds then every element of the returned handle at every index in
`[0, len)` reads back as `v` immediately after construction. -/
theorem C1_new_in_value_initializes (α : Type) (elemSize align len : Nat) (v : α)
    (alloc : Allocator) (s : ManagedSlice α) (i : Nat)
    (hok : (new_in elemSize align len v alloc).1 = .ok s) (hi : i < len) :
    readAt s i = some v := by
  obtain ⟨layout, addr, bs, -, -, hs⟩ := new_in_fst_ok_inv hok
  subst hs
  simp [readAt, ManagedSlice.deref, List.getElem?_replicate, hi]

theorem C1_witness :
    (new_in 1 1 3 (7 : Nat) (okAllocator 0)).1 =
      .ok ⟨[7, 7, 7], 16, okAllocator 0⟩ ∧
    (1 : Nat) < 3 ∧
    readAt (⟨[7, 7, 7], 16, okAllocator 0⟩ : ManagedSlice Nat) 1 = some 7 :=
  ⟨rfl, by decide,
    C1_new_in_value_initializes Nat 1 1 3 7 (okAllocator 0) _ 1 rfl (by decide)⟩

/-- C2: when `len * size_of(T)` exceeds `isize::MAX`, both constructors return
the allocation-failure outcome and their event trace is empty — the
allocator's allocate operation is never invoked. -/
theorem C2_overflow_fails_without_allocating (α : Type) (elemSize align len : Nat)
    (v : α) (alloc : Allocator) (h : isizeMax < len * elemSize) :
    new_uninit_in α elemSize align len alloc = (.error .allocError, []) ∧
    new_in elemSize align len v alloc = (.error .allocError, []) := by
  have hla := @layoutArray_overflow elemSize align len h
  constructor <;> simp [new_uninit_in, new_in, hla]

theorem C2_witness :
    isizeMax < 2 ^ 61 * 8 ∧
    new_uninit_in Nat 8 8 (2 ^ 61) (okAllocator 0) = (.error .allocError, []) ∧
    new_in 8 8 (2 ^ 61) (0 : Nat) (okAllocator 0) = (.error .allocError, []) :=
  ⟨by decide,
    (C2_overflow_fails_without_allocating Nat 8 8 (2 ^ 61) 0 (okAllocator 0) (by decide)).1,
    (C2_overflow_fails_without_allocating Nat 8 8 (2 ^ 61) 0 (okAllocator 0) (by decide)).2⟩

/-- C3: when the layout is representable but the allocator declines the
request, both constructors return the allocation-failure outcome (no handle),
and the trace holds only the failed allocate call — in particular no
deallocate call is ever made for the failed construction. -/
theorem C3_allocator_failure_is_atomic (α : Type) (elemSize align len : Nat)
    (v : α) (alloc : Allocator) (layout : Layout)
    (hla : layoutArray elemSize align len = some layout)
    (hfail : alloc.allocate layout = none) :
    new_uninit_in α elemSize align len alloc = (.error .allocError, [.allocate layout]) ∧
    new_in elemSize align len v alloc = (.error .allocError, [.allocate layout]) ∧
    (∀ a l, AllocEvent.deallocate a l ∉ (new_uninit_in α elemSize align len alloc).2) ∧
    (∀ a l, AllocEvent.deallocate a l ∉ (new_in elemSize align len v alloc).2) := by
  refine ⟨?_, ?_, ?_, ?_⟩ <;>
    simp [new_uninit_in, new_in, hla, hfail]

theorem C3_witness :
    layoutArray 1 1 4 = some ⟨4, 1⟩ ∧
    failAllocator.allocate ⟨4, 1⟩ = none ∧
    new_in 1 1 4 (0 : Nat) failAllocator = (.error .allocError, [.allocate ⟨4, 1⟩]) :=
  ⟨rfl, rfl,
    (C3_allocator_failure_is_atomic Nat 1 1 4 0 failAllocator ⟨4, 1⟩ rfl rfl).2.1⟩

/-- C4: for a handle successfully produced by `new_in` and any index
`i < len`, writing `v` at `i` through the `DerefMut` view succeeds, reading
`i` back through the `Deref` view returns `v`, and every other index is
unchanged by the write. -/
theorem C4_write_then_read (α : Type) (elemSize align len : Nat) (v0 v : α)
    (alloc : Allocator) (s : ManagedSlice α) (i : Nat)
    (hok : (new_in elemSize align len v0 alloc).1 = .ok s) (hi : i < len) :
    ∃ s', writeAt s i v = some s' ∧ readAt s' i = some v ∧
      ∀ j, j ≠ i → readAt s' j = readAt s j := by
  obtain ⟨layout, addr, bs, -, -, hs⟩ := new_in_fst_ok_inv hok
  subst hs
  have hlen : (List.replicate len v0).length = len := List.length_replicate len v0
  refine ⟨⟨(List.replicate len v0).set i v, addr, alloc⟩, ?_, ?_, ?_⟩
  · simp only [writeAt, hlen]
    rw [if_pos hi]
  · simp only [readAt, ManagedSlice.deref]
    exact List.getElem?_set_self (by simpa [hlen] using hi)
  · intro j hj
    simp only [readAt, ManagedSlice.deref]
    exact List.getElem?_set_ne (Ne.symm hj)

theorem C4_witness :
    (new_in 1 1 3 (7 : Nat) (okAllocator 0)).1 =
      .ok ⟨[7, 7, 7], 16, okAllocator 0⟩ ∧
    (2 : Nat) < 3 ∧
    (∃ s', writeAt (⟨[7, 7, 7], 16, okAllocator 0⟩ : ManagedSlice Nat) 2 9 = some s' ∧
      readAt s' 2 = some 9 ∧
      ∀ j, j ≠ 2 → readAt s' j = readAt (⟨[7, 7, 7], 16, okAllocator 0⟩ : ManagedSlice Nat) j) :=
  ⟨rfl, by decide,
    C4_write_then_read Nat 1 1 3 7 9 (okAllocator 0) _ 2 rfl (by decide)⟩

theorem new_uninit_in_trace_no_dealloc (α : Type) (elemSize align len : Nat)
    (alloc : Allocator) (a : Nat) (l : Layout) :
    AllocEvent.deallocate a l ∉ (new_uninit_in α elemSize align len alloc).2 := by
  unfold new_uninit_in
  split
  · simp
  · split <;> simp

theorem new_in_trace_no_dealloc (elemSize align len : Nat) (v : α)
    (alloc : Allocator) (a : Nat) (l : Layout) :
    AllocEvent.deallocate a l ∉ (new_in elemSize align len v alloc).2 := by
  unfold new_in
  split
  · simp
  · split <;> simp

theorem readAt_isSome_iff (s : ManagedSlice α) (i : Nat) :
    (readAt s i).isSome ↔ i < s.memory.length := by
  unfold readAt ManagedSlice.deref
  rw [Option.isSome_iff_exists]
  constructor
  · rintro ⟨a, ha⟩
    exact (List.getElem?_eq_some.mp ha).1
  · intro h
    exact ⟨s.memory[i], List.getElem?_eq_some.mpr ⟨h, rfl⟩⟩

theorem writeAt_isSome_iff (s : ManagedSlice α) (i : Nat) (v : α) :
    (writeAt s i v).isSome ↔ i < s.memory.length := by
  unfold writeAt
  split <;> simp_all

/-- C5: the construction trace itself never contains a deallocate call
(whatever the outcome), and every successful construction performs exactly
one allocate, which `drop` then matches with exactly one deallocate whose
layout equals the one passed to that allocate. -/
theorem C5_one_release_with_matching_layout (α : Type) (elemSize align len : Nat)
    (v : α) (alloc : Allocator) :
    (∀ a l, AllocEvent.deallocate a l ∉ (new_uninit_in α elemSize align len alloc).2) ∧
    (∀ a l, AllocEvent.deallocate a l ∉ (new_in elemSize align len v alloc).2) ∧
    (∀ s tr, new_uninit_in α elemSize align len alloc = (.ok s, tr) →
      ∃ layout, tr = [.allocate layout] ∧
        ManagedSlice.drop elemSize align s = some (.deallocate s.addr layout)) ∧
    (∀ s tr, new_in elemSize align len v alloc = (.ok s, tr) →
      ∃ layout, tr = [.allocate layout] ∧
        ManagedSlice.drop elemSize align s = some (.deallocate s.addr layout)) := by
  refine ⟨new_uninit_in_trace_no_dealloc α elemSize align len alloc,
    new_in_trace_no_dealloc elemSize align len v alloc, ?_, ?_⟩
  · intro s tr h
    obtain ⟨layout, addr, bs, hla, -, hs, htr⟩ := new_uninit_in_ok_inv h
    subst hs
    exact ⟨layout, htr, by simp [ManagedSlice.drop, hla]⟩
  · intro s tr h
    obtain ⟨layout, addr, bs, hla, -, hs, htr⟩ := new_in_ok_inv h
    subst hs
    exact ⟨layout, htr, by simp [ManagedSlice.drop, hla]⟩

theorem C5_witness :
    new_in 1 1 2 (7 : Nat) (okAllocator 3) =
      (.ok ⟨[7, 7], 16, okAllocator 3⟩, [.allocate ⟨2, 1⟩]) ∧
    (∃ layout, [AllocEvent.allocate ⟨2, 1⟩] = [AllocEvent.allocate layout] ∧
      ManagedSlice.drop 1 1 (⟨[7, 7], 16, okAllocator 3⟩ : ManagedSlice Nat) =
        some (.deallocate (⟨[7, 7], 16, okAllocator 3⟩ : ManagedSlice Nat).addr layout)) :=
  ⟨rfl,
    (C5_one_release_with_matching_layout Nat 1 1 2 7 (okAllocator 3)).2.2.2 _ _ rfl⟩

/-- C6: for every handle produced by a successful construction, the layout
recomputation inside `drop` (`Layout::array::<T>(self.len()).unwrap()`)
succeeds — the unwrap's panic branch is unreachable, so release is
infallible for the caller. -/
theorem C6_release_layout_recompute_infallible (α : Type) (elemSize align len : Nat)
    (v : α) (alloc : Allocator) :
    (∀ s : ManagedSlice (Uninit α), (new_uninit_in α elemSize align len alloc).1 = .ok s →
      (ManagedSlice.drop elemSize align s).isSome = true) ∧
    (∀ s : ManagedSlice α, (new_in elemSize align len v alloc).1 = .ok s →
      (ManagedSlice.drop elemSize align s).isSome = true) := by
  constructor
  · intro s h
    obtain ⟨layout, addr, bs, hla, -, hs⟩ := new_uninit_in_fst_ok_inv h
    subst hs
    simp [ManagedSlice.drop, hla]
  · intro s h
    obtain ⟨layout, addr, bs, hla, -, hs⟩ := new_in_fst_ok_inv h
    subst hs
    simp [ManagedSlice.drop, hla]

theorem C6_witness :
    (new_in 1 1 2 (7 : Nat) (okAllocator 0)).1 = .ok ⟨[7, 7], 16, okAllocator 0⟩ ∧
    (ManagedSlice.drop 1 1 (⟨[7, 7], 16, okAllocator 0⟩ : ManagedSlice Nat)).isSome = true :=
  ⟨rfl, (C6_release_layout_recompute_infallible Nat 1 1 2 7 (okAllocator 0)).2 _ rfl⟩

/-- C7: for every successfully constructed handle, reading or writing through
the exposed views succeeds exactly on the indices in `[0, len)`; at `len` or
beyond both views signal a bounds violation (`none`) instead of touching
adjacent memory. -/
theorem C7_indexing_valid_exactly_below_len (α : Type) (elemSize align len : Nat)
    (v0 : α) (alloc : Allocator) :
    (∀ s : ManagedSlice (Uninit α), (new_uninit_in α elemSize align len alloc).1 = .ok s →
      ∀ i, ∀ v : Uninit α,
        ((readAt s i).isSome ↔ i < len) ∧ ((writeAt s i v).isSome ↔ i < len)) ∧
    (∀ s : ManagedSlice α, (new_in elemSize align len v0 alloc).1 = .ok s →
      ∀ i, ∀ v : α,
        ((readAt s i).isSome ↔ i < len) ∧ ((writeAt s i v).isSome ↔ i < len)) := by
  constructor
  · intro s h i v
    obtain ⟨layout, addr, bs, -, -, hs⟩ := new_uninit_in_fst_ok_inv h
    subst hs
    constructor
    · rw [readAt_isSome_iff]
      simp
    · rw [writeAt_isSome_iff]
      simp
  · intro s h i v
    obtain ⟨layout, addr, bs, -, -, hs⟩ := new_in_fst_ok_inv h
    subst hs
    constructor
    · rw [readAt_isSome_iff]
      simp
    · rw [writeAt_isSome_iff]
      simp

theorem C7_witness :
    (new_in 1 1 2 (7 : Nat) (okAllocator 1)).1 = .ok ⟨[7, 7], 16, okAllocator 1⟩ ∧
    ((readAt (⟨[7, 7], 16, okAllocator 1⟩ : ManagedSlice Nat) 2).isSome ↔ 2 < 2) ∧
    ((writeAt (⟨[7, 7], 16, okAllocator 1⟩ : ManagedSlice Nat) 2 9).isSome ↔ 2 < 2) :=
  ⟨rfl,
    ((C7_indexing_valid_exactly_below_len Nat 1 1 2 7 (okAllocator 1)).2 _ rfl 2 9).1,
    ((C7_indexing_valid_exactly_below_len Nat 1 1 2 7 (okAllocator 1)).2 _ rfl 2 9).2⟩

/-- C8: with `len = 0` and an allocator that satisfies the zero-sized request,
both constructors succeed, the exposed view is empty, and `drop` still emits
exactly one deallocate whose layout equals the zero-sized allocate layout. -/
theorem C8_zero_length_construction (α : Type) (elemSize align : Nat) (v : α)
    (alloc : Allocator) (addr bs : Nat)
    (halloc : alloc.allocate ⟨0, align⟩ = some (addr, bs)) :
    new_uninit_in α elemSize align 0 alloc =
      (.ok ⟨[], addr, alloc⟩, [.allocate ⟨0, align⟩]) ∧
    new_in elemSize align 0 v alloc = (.ok ⟨[], addr, alloc⟩, [.allocate ⟨0, align⟩]) ∧
    ManagedSlice.deref (⟨[], addr, alloc⟩ : ManagedSlice α) = [] ∧
    ManagedSlice.drop elemSize align (⟨[], addr, alloc⟩ : ManagedSlice α) =
      some (.deallocate addr ⟨0, align⟩) := by
  refine ⟨?_, ?_, rfl, ?_⟩
  · simp [new_uninit_in, layoutArray_zero, halloc]
  · simp [new_in, layoutArray_zero, halloc, fillUninit]
  · simp [ManagedSlice.drop, layoutArray_zero]

theorem C8_witness :
    (okAllocator 0).allocate ⟨0, 4⟩ = some (16, 0) ∧
    new_in 4 4 0 (7 : Nat) (okAllocator 0) =
      (.ok ⟨[], 16, okAllocator 0⟩, [.allocate ⟨0, 4⟩]) :=
  ⟨rfl, (C8_zero_length_construction Nat 4 4 7 (okAllocator 0) 16 0 rfl).2.1⟩

/-- C9: the `unsafe impl Send` makes `ManagedSlice<T, A>` transferable to
another thread exactly when `T` is `Send`, and imposes no `Send` condition on
the allocator type `A` — the result is the same whether or not `A` is
`Send`. -/
theorem C9_send_iff_element_send : ∀ tSend aSend aSendOther : Bool,
    (managedSliceSend tSend aSend = true ↔ tSend = true) ∧
    managedSliceSend tSend aSend = managedSliceSend tSend aSendOther :=
  fun _ _ _ => ⟨Iff.rfl, rfl⟩

/-- C10: the exposed view of every successfully constructed handle has length
exactly the requested `len` — the view is built from the requested element
count, not from the size of the block the allocator returned (the theorem
holds for every allocator, including ones returning oversized blocks). -/
theorem C10_view_length_is_requested_len (α : Type) (elemSize align len : Nat)
    (v : α) (alloc : Allocator) :
    (∀ s : ManagedSlice (Uninit α), (new_uninit_in α elemSize align len alloc).1 = .ok s →
      (ManagedSlice.deref s).length = len) ∧
    (∀ s : ManagedSlice α, (new_in elemSize align len v alloc).1 = .ok s →
      (ManagedSlice.deref s).length = len) := by
  constructor
  · intro s h
    obtain ⟨layout, addr, bs, -, -, hs⟩ := new_uninit_in_fst_ok_inv h
    subst hs
    simp [ManagedSlice.deref]
  · intro s h
    obtain ⟨layout, addr, bs, -, -, hs⟩ := new_in_fst_ok_inv h
    subst hs
    simp [ManagedSlice.deref]

theorem C10_witness :
    (new_uninit_in Nat 4 4 2 (okAllocator 5)).1 =
      .ok ⟨List.replicate 2 none, 16, okAllocator 5⟩ ∧
    (ManagedSlice.deref
      (⟨List.replicate 2 none, 16, okAllocator 5⟩ : ManagedSlice (Uninit Nat))).length = 2 :=
  ⟨rfl, (C10_view_length_is_requested_len Nat 4 4 2 0 (okAllocator 5)).1 _ rfl⟩

end ManagedSliceModel
